import Mathlib

/-!
Shallow embedding of the index-management dashboard plugin's field-mapping
reconciliation and data-preview pipeline, together with theorems checking the
specification's claims against it.

The embedded functions mirror, definition by definition:
  - `parseFieldOptions` and `compareFieldItem` (utils/helpers);
  - the field-intersection `reduce` used by `mapToColumns` / `parseColumns`
    in the PreviewIndices containers;
  - `mapDataToTable` (row projection) and the `totalResults`-driven row loop
    of the `onIndexChange` variant;
  - the `IndexService` server handlers (`getIndices`, `applyPolicy`,
    `editRolloverAlias`, `searchIndexData`);
  - the `onSearchChange` handler and the state updates of `onIndexChange`;
  - the lodash `debounce` wrapping of `getIndices` (leading and trailing
    edges), as configured in the PreviewIndices constructor.
JavaScript objects iterated with `for ... in` are embedded as ordered
association lists; `undefined`/`null` becomes `Option.none`; a JS statement
that throws becomes an `Option.none` result of the embedded function.
-/

/-- `FieldItem` from models/interfaces: a flattened mapping-field descriptor.
`path` may be absent on the JS object, hence `Option`. -/
structure FieldItem where
  label : String
  type : String
  path : Option String
deriving DecidableEq, Repr

/-- utils/helpers `compareFieldItem`: equality on `label` and `type` only
(`itemB.label == itemA.label && itemA.type == itemB.type`); `path` ignored. -/
def compareFieldItem (itemA itemB : FieldItem) : Bool :=
  itemB.label == itemA.label && itemA.type == itemB.type

/-- JS `Array.prototype.reduce` with no initial value: throws on an empty
array (embedded as `none`), otherwise folds from the first element. -/
def reduceNoInit (f : α → α → α) : List α → Option α
  | [] => none
  | x :: xs => some (xs.foldl f x)

/-- The intersection `reduce` of `mapToColumns` / `parseColumns`:
`allMappings.reduce((mappingA, mappingB) =>
   mappingA.filter((itemA) => mappingB.some((itemB) => compareFieldItem(itemA, itemB))))`. -/
def intersectFields (allMappings : List (List FieldItem)) : Option (List FieldItem) :=
  reduceNoInit
    (fun mappingA mappingB =>
      mappingA.filter (fun itemA => mappingB.any (fun itemB => compareFieldItem itemA itemB)))
    allMappings

/-- A node of a backend mapping tree: optional `type`, optional `path`,
optional `fields` (multi-field sub-mapping) and optional `properties`
(object sub-mapping).  Sub-mappings are ordered association lists, matching
JS `for ... in` iteration order over own properties. -/
inductive MappingNode : Type where
  | mk (ty : Option String) (pa : Option String)
       (fields : Option (List (String × MappingNode)))
       (properties : Option (List (String × MappingNode)))
deriving Repr

/-- utils/helpers `parseFieldOptions`: flatten a mapping tree into field
descriptors.  A node emits a leaf descriptor when its `type` is set and is
neither `"object"` nor `"nested"`; `fields` and then `properties` are
recursed into with the key appended to the prefix. -/
def parseFieldOptions (pfx : String) : List (String × MappingNode) → List FieldItem
  | [] => []
  | (field, MappingNode.mk ty pa fl pr) :: rest =>
    (match ty with
     | some t =>
       if t != "object" && t != "nested" then [⟨pfx ++ field, t, pa⟩] else []
     | none => []) ++
    (match fl with
     | some m => parseFieldOptions (pfx ++ field ++ ".") m
     | none => []) ++
    (match pr with
     | some m => parseFieldOptions (pfx ++ field ++ ".") m
     | none => []) ++
    parseFieldOptions pfx rest

/-- Ancestor keys joined by `"."`, as the spec describes dotted labels. -/
def joinDotted : List String → String
  | [] => ""
  | [k] => k
  | k :: ks => k ++ "." ++ joinDotted ks

/-- Specification-side description of the Mapping Collector (written from the
spec's words, to be compared with `parseFieldOptions`): the leaves of a
mapping tree, each as (ancestor key list, type, path), a leaf being a node
whose `type` is present and neither `"object"` nor `"nested"`, enumerated in
key order with a node's own leaf before its `fields` expansion before its
`properties` expansion. -/
def mappingLeaves : List (String × MappingNode) → List (List String × String × Option String)
  | [] => []
  | (field, MappingNode.mk ty pa fl pr) :: rest =>
    (match ty with
     | some t => if t != "object" && t != "nested" then [([field], t, pa)] else []
     | none => []) ++
    ((match fl with
      | some m => mappingLeaves m
      | none => ([] : List (List String × String × Option String))).map
        (fun (l : List String × String × Option String) => (field :: l.1, l.2))) ++
    ((match pr with
      | some m => mappingLeaves m
      | none => ([] : List (List String × String × Option String))).map
        (fun (l : List String × String × Option String) => (field :: l.1, l.2))) ++
    mappingLeaves rest

/-- Count of leaf (non-object, non-nested, typed) nodes reachable through
`fields` and `properties` recursion. -/
def leafCount : List (String × MappingNode) → Nat
  | [] => 0
  | (_, MappingNode.mk ty _ fl pr) :: rest =>
    (match ty with
     | some t => if t != "object" && t != "nested" then 1 else 0
     | none => 0) +
    (match fl with
     | some m => leafCount m
     | none => 0) +
    (match pr with
     | some m => leafCount m
     | none => 0) +
    leafCount rest

/-- `ColumnInfo` of the PreviewIndices containers. -/
structure ColumnInfo where
  id : String
  type : String
deriving DecidableEq, Repr

/-- A fetched document: a JS record embedded as an ordered association list
from field name to value. -/
abbrev Doc (V : Type) : Type := List (String × V)

/-- A projected row: JS object from column id to the (possibly `undefined`,
i.e. `none`) value copied from the document. -/
abbrev Row (V : Type) : Type := List (String × Option V)

/-- JS property read `doc[k]`: first binding wins, absent keys give
`undefined` (`none`). -/
def docLookup (doc : Doc V) (k : String) : Option V :=
  match doc.find? (fun e => e.1 == k) with
  | some e => some e.2
  | none => none

/-- JS object spread `{...row, [k]: v}`: replaces `k` in place when present
(key order kept), otherwise appends it. -/
def setKey (row : Row V) (k : String) (v : Option V) : Row V :=
  if row.any (fun e => e.1 == k) then
    row.map (fun e => if e.1 == k then (k, v) else e)
  else
    row ++ [(k, v)]

/-- The inner loop body of `mapDataToTable`: build one row from one document
by folding `row = { ...row, [column.id]: data[i][column.id] }` over the
columns. -/
def projectDoc (columns : List ColumnInfo) (doc : Doc V) : Row V :=
  columns.foldl (fun row column => setKey row column.id (docLookup doc column.id)) []

/-- `mapDataToTable` of the PreviewIndices containers: empty (or missing)
data gives no rows, otherwise one projected row per fetched document, index
`i` ranging over `data.length`. -/
def mapDataToTable (data : List (Doc V)) (columns : List ColumnInfo) : List (Row V) :=
  if data.isEmpty then [] else data.map (fun doc => projectDoc columns doc)

/-- One iteration of the `totalResults`-driven row loop of the early
`onIndexChange` variant: reading `results[i][column.id]`.  When `i` is past
the end of `results`, `results[i]` is `undefined` and the property read
throws unless there are no columns (the `forEach` body never runs); a throw
is embedded as `none`. -/
def rowAtIndex (results : List (Doc V)) (columns : List ColumnInfo) (i : Nat) : Option (Row V) :=
  columns.foldl
    (fun acc column =>
      match acc with
      | none => none
      | some row =>
        match results.get? i with
        | some doc => some (setKey row column.id (docLookup doc column.id))
        | none => none)
    (some [])

/-- The row loop `for (let i = 0; i < totalResults; i++)` of the early
`onIndexChange` variant, which iterates up to `totalResults` rather than up
to the length of the fetched `results`. -/
def rowsByTotalResults (results : List (Doc V)) (totalResults : Nat)
    (columns : List ColumnInfo) : Option (List (Row V)) :=
  (List.range totalResults).foldl
    (fun acc i =>
      match acc with
      | none => none
      | some rows =>
        match rowAtIndex results columns i with
        | some row => some (rows ++ [row])
        | none => none)
    (some [])

/-- The result of one `onIndexChange` selection once both its fetches have
resolved: the values passed to
`this.setState({ columns, raw_data, sourceIndex: value })`. -/
structure FetchResult (V : Type) where
  sourceIndex : String
  columns : List ColumnInfo
  rows : List (Row V)
deriving DecidableEq

/-- The preview-relevant component state. -/
structure PreviewUIState (V : Type) where
  sourceIndex : Option String
  columns : List ColumnInfo
  raw_data : List (Row V)
deriving DecidableEq

/-- The `setState` performed when a selection's fetches resolve
(`onIndexChange`): it overwrites columns, rows and the selected index
unconditionally — there is no request-generation check. -/
def applyIndexChangeResult (_s : PreviewUIState V) (r : FetchResult V) : PreviewUIState V :=
  { sourceIndex := some r.sourceIndex, columns := r.columns, raw_data := r.rows }

/-- Event-driven execution of overlapping selections: the completion handlers
run in resolution order, each applying its unconditional `setState`.
`s` is the state before the first resolution; `rs` lists the fetch results
in the order their requests resolve. -/
def runResolutions (s : PreviewUIState V) (rs : List (FetchResult V)) : PreviewUIState V :=
  rs.foldl applyIndexChangeResult s

/-- A backend (transport-level) error as seen in the handlers' `catch`
blocks: `err.statusCode`, `err.body.error.type` and `err.message`. -/
structure BackendErr where
  statusCode : Nat
  errType : String
  message : String
deriving DecidableEq

/-- The tagged body every route handler returns:
`{ok: true, response}` or `{ok: false, error}`. -/
inductive ServerResponse (α : Type) where
  | ok (response : α)
  | fail (error : String)
deriving DecidableEq

/-- What `response.custom({statusCode, body})` produces. -/
structure HttpResponse (α : Type) where
  statusCode : Nat
  body : ServerResponse α
deriving DecidableEq

/-- One entry of the `cat.indices` backend response, with its
data-stream augmentation already applied. -/
structure CatIndex where
  index : String
  data_stream : Option String
deriving DecidableEq

/-- Body of a successful `getIndices`. -/
structure GetIndicesResponse where
  indices : List CatIndex
  totalIndices : Nat
deriving DecidableEq

/-- Server `IndexService.getIndices`: on success filter out data-stream
backing indices unless `showDataStreams`, paginate with
`slice(from, from + size)`, and answer `{ok: true, ...}` with HTTP 200; in
the catch block, a 404 `index_not_found_exception` becomes a successful
empty result, any other error becomes `{ok: false, error}` — both with
HTTP 200. -/
def getIndicesHandler (backend : Except BackendErr (List CatIndex))
    (fromN sizeN : Nat) (showDataStreams : Bool) : HttpResponse GetIndicesResponse :=
  match backend with
  | .ok indicesResponse =>
    let filteredIndices :=
      if showDataStreams then indicesResponse
      else indicesResponse.filter (fun i => i.data_stream == none)
    let paginatedIndices := (filteredIndices.drop fromN).take sizeN
    ⟨200, .ok ⟨paginatedIndices, filteredIndices.length⟩⟩
  | .error err =>
    if err.statusCode == 404 && err.errType == "index_not_found_exception" then
      ⟨200, .ok ⟨[], 0⟩⟩
    else
      ⟨200, .fail err.message⟩

/-- Body of a successful `searchIndexData`. -/
structure SearchIndexResponse (V : Type) where
  results : List (Doc V)
  totalResults : Nat
deriving DecidableEq

/-- The backend `search` response part the handler reads:
`hits.hits[]._source` and `hits.total.value`. -/
structure SearchHits (V : Type) where
  sources : List (Doc V)
  totalValue : Nat

/-- Server `IndexService.searchIndexData`: success maps the hits to
`{results, totalResults}`; the catch block treats a 404
`index_not_found_exception` as a successful empty result; anything else is
`{ok: false, error}` — all with HTTP 200. -/
def searchIndexDataHandler (backend : Except BackendErr (SearchHits V)) :
    HttpResponse (SearchIndexResponse V) :=
  match backend with
  | .ok searchResponse => ⟨200, .ok ⟨searchResponse.sources, searchResponse.totalValue⟩⟩
  | .error err =>
    if err.statusCode == 404 && err.errType == "index_not_found_exception" then
      ⟨200, .ok ⟨[], 0⟩⟩
    else
      ⟨200, .fail err.message⟩

/-- A failed index of the `ism.add` backend response. -/
structure FailedIndex where
  index_name : String
  index_uuid : String
  reason : String

/-- The `ism.add` backend response. -/
structure AddResponse where
  failures : Bool
  updated_indices : Nat
  failed_indices : List FailedIndex

/-- Body of a successful `applyPolicy`, with the handler's field renaming. -/
structure ApplyPolicyResponse where
  failures : Bool
  updatedIndices : Nat
  failedIndices : List (String × String × String)

/-- Server `IndexService.applyPolicy`: success maps the `ism.add` response;
every error becomes `{ok: false, error}` (no index-not-found special case)
— both with HTTP 200. -/
def applyPolicyHandler (backend : Except BackendErr AddResponse) :
    HttpResponse ApplyPolicyResponse :=
  match backend with
  | .ok addResponse =>
    ⟨200, .ok ⟨addResponse.failures, addResponse.updated_indices,
      addResponse.failed_indices.map (fun f => (f.index_name, f.index_uuid, f.reason))⟩⟩
  | .error err => ⟨200, .fail err.message⟩

/-- Server `IndexService.editRolloverAlias`: success passes the
`indices.putSettings` acknowledgement through; every error becomes
`{ok: false, error}` — both with HTTP 200. -/
def editRolloverAliasHandler (backend : Except BackendErr Bool) :
    HttpResponse Bool :=
  match backend with
  | .ok rollOverResponse => ⟨200, .ok rollOverResponse⟩
  | .error err => ⟨200, .fail err.message⟩

/-- Client-side `getIndices` of the PreviewIndices containers, applied to
the already-received server response: on `ok` replace the index options
with `{label: i.index, value: i.index}`; otherwise keep the list and add a
danger toast (returned as the list of notification messages). -/
def clientGetIndicesStep (indices : List (String × String))
    (resp : ServerResponse GetIndicesResponse) :
    List (String × String) × List String :=
  match resp with
  | .ok r => (r.indices.map (fun i => (i.index, i.index)), [])
  | .fail e => (indices, [e])

/-- An `EuiComboBox` option: its `value` may be absent. -/
structure ComboOption where
  label : String
  value : Option String
deriving DecidableEq

/-- The component state read by `onSearchChange`. -/
structure SearchState (V : Type) where
  sourceIndex : Option (List ComboOption)
  columns : List ColumnInfo
  raw_data : List (Row V)
deriving DecidableEq

/-- `onSearchChange` of the PreviewIndices container: on a parse `error`
return at once; otherwise convert the query, and when
`sourceIndex && sourceIndex.length > 0 && sourceIndex[0].value` holds
(the `columns` array itself is always truthy), fetch rows for the current
index with the parsed query and `setState({ raw_data })`.  `toES` embeds
`EuiSearchBar.Query.toESQuery`; `fetch` embeds the resolved
`getData` row fetch; the returned `Bool` records whether a backend row
fetch was performed. -/
def onSearchChange (toES : Q → E) (fetch : String → E → List (Row V))
    (s : SearchState V) (query : Q) (error : Option String) : SearchState V × Bool :=
  if error.isSome then (s, false)
  else
    let q := toES query
    match s.sourceIndex with
    | none => (s, false)
    | some srcOpts =>
      match srcOpts.head? with
      | none => (s, false)
      | some opt =>
        match opt.value with
        | none => (s, false)
        | some v =>
          if v == "" then (s, false)
          else ({ s with raw_data := fetch v q }, true)

/-- lodash `debounce(fn, wait, { leading: true })` (trailing defaults to
true), embedded from lodash's documented semantics for a strictly
increasing list of call timestamps: the first call of a burst invokes
immediately (leading edge); calls arriving within `wait` of the previous
call are deferred; once `wait` elapses after the last call of a burst, a
trailing invocation fires if any deferred call is pending.  `lastCall` is
the previous call's timestamp, `pending` whether a deferred call awaits the
trailing edge.  Returns the timestamps at which the wrapped function is
invoked. -/
def debounceAux (wait : Nat) (lastCall : Option Nat) (pending : Bool) : List Nat → List Nat
  | [] =>
    match lastCall with
    | some lc => if pending then [lc + wait] else []
    | none => []
  | t :: ts =>
    match lastCall with
    | none => t :: debounceAux wait (some t) false ts
    | some lc =>
      if wait ≤ t - lc then
        (if pending then [lc + wait] else []) ++ t :: debounceAux wait (some t) false ts
      else
        debounceAux wait (some t) true ts

/-- Invocation timestamps of the debounced `getIndices` for a list of call
timestamps (strictly increasing). -/
def debounceInvocations (wait : Nat) (calls : List Nat) : List Nat :=
  debounceAux wait none false calls

/-- The calls form one burst: strictly increasing, each within `wait` of the
previous. -/
def isBurst (wait : Nat) : List Nat → Bool
  | a :: b :: rest => a < b && b - a < wait && isBurst wait (b :: rest)
  | _ => true

theorem strBeqComm (a b : String) : (a == b) = (b == a) := by
  cases h : a == b with
  | true => rw [beq_iff_eq] at h; simp [h]
  | false =>
    symm
    rw [beq_eq_false_iff_ne] at h ⊢
    exact fun e => h e.symm

theorem compareFieldItem_eq_labelType (a b : FieldItem) :
    compareFieldItem a b = (a.label == b.label && a.type == b.type) := by
  unfold compareFieldItem
  rw [strBeqComm b.label a.label]

theorem intersect_foldl_closed_form (rest : List (List FieldItem)) (A : List FieldItem) :
    rest.foldl
      (fun mappingA mappingB =>
        mappingA.filter (fun itemA => mappingB.any (fun itemB => compareFieldItem itemA itemB)))
      A
    = A.filter (fun a => rest.all (fun s => s.any (fun b => compareFieldItem a b))) := by
  induction rest generalizing A with
  | nil =>
    simp only [List.foldl_nil, List.all_nil]
    exact (List.filter_true A).symm
  | cons B rest ih =>
    rw [List.foldl_cons, ih, List.filter_filter]
    apply List.filter_congr
    intro x _
    simp only [List.all_cons]
    exact Bool.and_comm _ _

theorem intersectFields_cons (A : List FieldItem) (rest : List (List FieldItem)) :
    intersectFields (A :: rest)
      = some (A.filter (fun a => rest.all (fun s => s.any (fun b => compareFieldItem a b)))) := by
  show some _ = some _
  rw [intersect_foldl_closed_form]

/-- C1: For a non-empty input, the field intersection emits exactly the
descriptors of the first sequence (those instances, path included, in that
order) that have, in every other sequence, some descriptor with equal label
and equal type; and the comparison ignores `path` entirely. -/
theorem intersector_first_sequence_closed_form
    (A : List FieldItem) (rest : List (List FieldItem)) :
    intersectFields (A :: rest)
      = some (A.filter (fun a =>
          rest.all (fun s => s.any (fun b => a.label == b.label && a.type == b.type))))
    ∧ ∀ (a b : FieldItem) (p q : Option String),
        compareFieldItem { a with path := p } { b with path := q } = compareFieldItem a b := by
  constructor
  · rw [intersectFields_cons]
    congr 2
    funext a
    congr 1
    funext s
    congr 1
    funext b
    exact compareFieldItem_eq_labelType a b
  · intro a b p q
    rfl

/-- C6: Intersecting an empty sequence of descriptor sequences fails (the
`reduce` of an empty array with no initial value throws), and for every
non-empty input the error branch is unreachable: a value is returned. -/
theorem intersector_empty_fails_nonempty_total :
    intersectFields [] = none
    ∧ ∀ (A : List FieldItem) (rest : List (List FieldItem)),
        (intersectFields (A :: rest)).isSome = true := by
  refine ⟨rfl, ?_⟩
  intro A rest
  simp [intersectFields, reduceNoInit]

/-- C7: The field intersection is the identity on a singleton input and
idempotent on a duplicated input, and a descriptor of the first sequence
whose label occurs in the second sequence only with different types is
excluded from the result. -/
theorem intersector_identity_idempotent_type_clash (A B : List FieldItem) :
    intersectFields [A] = some A
    ∧ intersectFields [A, A] = some A
    ∧ ∀ a ∈ A, (∀ b ∈ B, b.label = a.label → b.type ≠ a.type) →
        ∀ r, intersectFields [A, B] = some r → a ∉ r := by
  refine ⟨rfl, ?_, ?_⟩
  · rw [intersectFields_cons]
    congr 1
    rw [List.filter_eq_self]
    intro a ha
    simp only [List.all_cons, List.all_nil, Bool.and_true, List.any_eq_true]
    exact ⟨a, ha, by simp [compareFieldItem]⟩
  · intro a _ hclash r hr hmem
    rw [intersectFields_cons] at hr
    have hr' := Option.some.inj hr
    rw [← hr', List.mem_filter] at hmem
    rcases hmem with ⟨_, hall⟩
    simp only [List.all_cons, List.all_nil, Bool.and_true, List.any_eq_true] at hall
    rcases hall with ⟨b, hbB, hcmp⟩
    simp only [compareFieldItem, Bool.and_eq_true, beq_iff_eq] at hcmp
    exact hclash b hbB hcmp.1 hcmp.2.symm

theorem intersector_identity_idempotent_type_clash_witness :
    (⟨"x", "keyword", none⟩ : FieldItem) ∉ ([] : List FieldItem) :=
  (intersector_identity_idempotent_type_clash
      [⟨"x", "keyword", none⟩] [⟨"x", "long", none⟩]).2.2
    ⟨"x", "keyword", none⟩ (by decide) (by decide) [] (by decide)

theorem joinDotted_cons (k : String) (ks : List String) (h : ks ≠ []) :
    joinDotted (k :: ks) = k ++ "." ++ joinDotted ks := by
  cases ks with
  | nil => exact absurd rfl h
  | cons a ks => rfl

theorem mappingLeaves_shape (m : List (String × MappingNode)) :
    ∀ l ∈ mappingLeaves m, l.1 ≠ [] ∧ l.2.1 ≠ "object" ∧ l.2.1 ≠ "nested" := by
  induction m using mappingLeaves.induct with
  | case1 => intro l hl; simp [mappingLeaves] at hl
  | case2 field ty pa fl pr rest ihf ihp ihrest =>
    intro l hl
    rcases ty with _ | t <;> rcases fl with _ | m1 <;> rcases pr with _ | m2 <;>
      simp only [mappingLeaves, List.mem_append, List.mem_map, List.mem_singleton,
        List.not_mem_nil, List.map_nil, or_false, false_or] at hl
    case none.none.none => exact ihrest l hl
    case none.none.some =>
      rcases hl with ⟨a, ha, rfl⟩ | h
      · have := ihp a ha
        exact ⟨by simp, this.2⟩
      · exact ihrest l h
    case none.some.none =>
      rcases hl with ⟨a, ha, rfl⟩ | h
      · have := ihf a ha
        exact ⟨by simp, this.2⟩
      · exact ihrest l h
    case none.some.some =>
      rcases hl with (⟨a, ha, rfl⟩ | ⟨a, ha, rfl⟩) | h
      · have := ihf a ha
        exact ⟨by simp, this.2⟩
      · have := ihp a ha
        exact ⟨by simp, this.2⟩
      · exact ihrest l h
    case some.none.none =>
      rcases hl with h | h
      · split_ifs at h with hc
        · simp only [List.mem_singleton] at h
          subst h
          simp only [Bool.and_eq_true, bne_iff_ne] at hc
          exact ⟨by simp, hc⟩
        · simp at h
      · exact ihrest l h
    case some.none.some =>
      rcases hl with (h | ⟨a, ha, rfl⟩) | h
      · split_ifs at h with hc
        · simp only [List.mem_singleton] at h
          subst h
          simp only [Bool.and_eq_true, bne_iff_ne] at hc
          exact ⟨by simp, hc⟩
        · simp at h
      · have := ihp a ha
        exact ⟨by simp, this.2⟩
      · exact ihrest l h
    case some.some.none =>
      rcases hl with (h | ⟨a, ha, rfl⟩) | h
      · split_ifs at h with hc
        · simp only [List.mem_singleton] at h
          subst h
          simp only [Bool.and_eq_true, bne_iff_ne] at hc
          exact ⟨by simp, hc⟩
        · simp at h
      · have := ihf a ha
        exact ⟨by simp, this.2⟩
      · exact ihrest l h
    case some.some.some =>
      rcases hl with ((h | ⟨a, ha, rfl⟩) | ⟨a, ha, rfl⟩) | h
      · split_ifs at h with hc
        · simp only [List.mem_singleton] at h
          subst h
          simp only [Bool.and_eq_true, bne_iff_ne] at hc
          exact ⟨by simp, hc⟩
        · simp at h
      · have := ihf a ha
        exact ⟨by simp, this.2⟩
      · have := ihp a ha
        exact ⟨by simp, this.2⟩
      · exact ihrest l h

theorem mappingLeaves_length_eq_leafCount (m : List (String × MappingNode)) :
    (mappingLeaves m).length = leafCount m := by
  induction m using mappingLeaves.induct with
  | case1 => simp [mappingLeaves, leafCount]
  | case2 field ty pa fl pr rest ihf ihp ihrest =>
    rcases ty with _ | t <;> rcases fl with _ | m1 <;> rcases pr with _ | m2 <;>
      simp only [mappingLeaves, leafCount, List.length_append, List.length_map,
        List.map_nil, List.length_nil] <;>
      simp only at ihf ihp <;>
      (try split_ifs) <;>
      (try simp only [List.length_singleton, List.length_nil]) <;>
      omega

theorem parseFieldOptions_eq_mappingLeaves (pfx : String) (m : List (String × MappingNode)) :
    parseFieldOptions pfx m
      = (mappingLeaves m).map (fun l => ⟨pfx ++ joinDotted l.1, l.2.1, l.2.2⟩) := by
  induction pfx, m using parseFieldOptions.induct with
  | case1 pfx => simp [parseFieldOptions, mappingLeaves]
  | case2 pfx field ty pa fl pr rest ihf ihp ihrest =>
    have hsub : ∀ (m' : List (String × MappingNode)),
        parseFieldOptions (pfx ++ field ++ ".") m'
          = (mappingLeaves m').map
              (fun l => ⟨pfx ++ field ++ "." ++ joinDotted l.1, l.2.1, l.2.2⟩) →
        (mappingLeaves m').map
            ((fun l => (⟨pfx ++ joinDotted l.1, l.2.1, l.2.2⟩ : FieldItem)) ∘
              (fun (l : List String × String × Option String) => (field :: l.1, l.2)))
          = parseFieldOptions (pfx ++ field ++ ".") m' := by
      intro m' ih
      rw [ih]
      apply List.map_congr_left
      intro l hl
      have hne := (mappingLeaves_shape m' l hl).1
      simp only [Function.comp, FieldItem.mk.injEq, and_true]
      rw [joinDotted_cons field l.1 hne]
      simp [String.append_assoc]
    have hleaf : ∀ t : String,
        (if (t != "object" && t != "nested") = true
          then [(⟨pfx ++ field, t, pa⟩ : FieldItem)] else [])
          = (if (t != "object" && t != "nested") = true
              then [(([field], t, pa) : List String × String × Option String)] else []).map
              (fun l => (⟨pfx ++ joinDotted l.1, l.2.1, l.2.2⟩ : FieldItem)) := by
      intro t
      split_ifs
      · simp [joinDotted]
      · rfl
    rcases ty with _ | t <;> rcases fl with _ | m1 <;> rcases pr with _ | m2 <;>
      simp only at ihf ihp
    case none.none.none =>
      simp only [parseFieldOptions, mappingLeaves, List.map_append, List.map_nil,
        List.nil_append, List.append_nil]
      exact ihrest
    case none.none.some =>
      simp only [parseFieldOptions, mappingLeaves, List.map_append, List.map_map,
        List.map_nil, List.nil_append, List.append_nil]
      rw [hsub m2 ihp, ihrest]
    case none.some.none =>
      simp only [parseFieldOptions, mappingLeaves, List.map_append, List.map_map,
        List.map_nil, List.nil_append, List.append_nil]
      rw [hsub m1 ihf, ihrest]
    case none.some.some =>
      simp only [parseFieldOptions, mappingLeaves, List.map_append, List.map_map,
        List.map_nil, List.nil_append, List.append_nil]
      rw [hsub m1 ihf, hsub m2 ihp, ihrest]
    case some.none.none =>
      simp only [parseFieldOptions, mappingLeaves, List.map_append, List.map_map,
        List.map_nil, List.nil_append, List.append_nil]
      rw [hleaf t, ihrest]
    case some.none.some =>
      simp only [parseFieldOptions, mappingLeaves, List.map_append, List.map_map,
        List.map_nil, List.nil_append, List.append_nil]
      rw [hleaf t, hsub m2 ihp, ihrest]
    case some.some.none =>
      simp only [parseFieldOptions, mappingLeaves, List.map_append, List.map_map,
        List.map_nil, List.nil_append, List.append_nil]
      rw [hleaf t, hsub m1 ihf, ihrest]
    case some.some.some =>
      simp only [parseFieldOptions, mappingLeaves, List.map_append, List.map_map]
      rw [hleaf t, hsub m1 ihf, hsub m2 ihp, ihrest]

/-- C2: The Mapping Collector emits exactly one descriptor per typed
non-object, non-nested node reachable through `fields`/`properties`
recursion, in key order with a node's own leaf before its `fields`
expansion before its `properties` expansion; every label is the prefix
followed by the ancestor keys joined by `"."`; the emitted count equals the
leaf count; and no emitted descriptor has type `"object"` or `"nested"`. -/
theorem collector_emits_dotted_leaves (pfx : String) (m : List (String × MappingNode)) :
    parseFieldOptions pfx m
      = (mappingLeaves m).map (fun l => ⟨pfx ++ joinDotted l.1, l.2.1, l.2.2⟩)
    ∧ (parseFieldOptions pfx m).length = leafCount m
    ∧ ∀ item ∈ parseFieldOptions pfx m, item.type ≠ "object" ∧ item.type ≠ "nested" := by
  refine ⟨parseFieldOptions_eq_mappingLeaves pfx m, ?_, ?_⟩
  · rw [parseFieldOptions_eq_mappingLeaves pfx m, List.length_map,
      mappingLeaves_length_eq_leafCount]
  · intro item hitem
    rw [parseFieldOptions_eq_mappingLeaves pfx m] at hitem
    rw [List.mem_map] at hitem
    rcases hitem with ⟨l, hl, heq⟩
    rw [← heq]
    exact (mappingLeaves_shape m l hl).2

/-- A small concrete mapping tree: a `text` field with a `keyword`
multi-field, and an `object` node with a `long` property. -/
def sampleTree : List (String × MappingNode) :=
  [("a", .mk (some "text") none
      (some [("raw", .mk (some "keyword") none none none)]) none),
   ("obj", .mk (some "object") none none
      (some [("b", .mk (some "long") (some "p") none none)]))]

theorem collector_emits_dotted_leaves_witness :
    (⟨"a", "text", none⟩ : FieldItem).type ≠ "object"
    ∧ (⟨"a", "text", none⟩ : FieldItem).type ≠ "nested" :=
  (collector_emits_dotted_leaves "" sampleTree).2.2 ⟨"a", "text", none⟩
    (by simp [sampleTree, parseFieldOptions])

/-- C3: Evaluating the two row-projection implementations at one fetched
document `{a: 1}` with `totalResults = 2` and columns `[a]`:
`mapDataToTable` yields exactly one row per fetched document, but the
`totalResults`-driven loop of the early `onIndexChange` variant reads past
the end of the fetched results and throws (embedded as `none`), violating
the claim for the cited loop. -/
theorem row_projection_total_results_overrun :
    rowsByTotalResults [[("a", 1)]] 2 [⟨"a", "string"⟩] = (none : Option (List (Row Nat)))
    ∧ mapDataToTable [[("a", 1)]] [⟨"a", "string"⟩] = [[("a", some 1)]] := by
  constructor <;> rfl

/-- Resolved fetch result of selecting `idx1`. -/
def idx1Result : FetchResult Nat :=
  ⟨"idx1", [⟨"a", "string"⟩], [[("a", some 1)]]⟩

/-- Resolved fetch result of selecting `idx2`. -/
def idx2Result : FetchResult Nat :=
  ⟨"idx2", [⟨"b", "string"⟩], [[("b", some 2)]]⟩

/-- C4 counterexample: `selectIndex("idx1")` then `selectIndex("idx2")`,
with idx1's fetch resolving after idx2's: the final displayed rows are
idx1's, not idx2's — `onIndexChange` has no request-generation counter and
its `setState` is unconditional. -/
theorem stale_selection_overwrites_counterexample :
    (runResolutions ⟨none, [], []⟩ [idx2Result, idx1Result]).raw_data = idx1Result.rows
    ∧ (runResolutions ⟨none, [], []⟩ [idx2Result, idx1Result]).sourceIndex = some "idx1"
    ∧ idx1Result.rows ≠ idx2Result.rows := by
  refine ⟨rfl, rfl, by decide⟩

/-- C4 (amended): with overlapping selections the displayed columns, rows
and selected index are those of whichever request resolves last, regardless
of selection order: each resolution's `setState` overwrites the state
unconditionally. -/
theorem last_resolution_wins (s : PreviewUIState V)
    (rs : List (FetchResult V)) (r : FetchResult V) :
    runResolutions s (rs ++ [r]) = ⟨some r.sourceIndex, r.columns, r.rows⟩ := by
  rw [runResolutions, List.foldl_append]
  rfl

/-- C5: A 404 `index_not_found_exception` backend failure makes both
`getIndices` and `searchIndexData` answer `{ok: true}` with an empty list
and a zero total; every other backend failure yields `{ok: false, error}`,
and the client surfaces it as a notification while keeping its index list. -/
theorem index_not_found_is_successful_empty (e : BackendErr)
    (fromN sizeN : Nat) (sds : Bool) :
    (e.statusCode = 404 ∧ e.errType = "index_not_found_exception" →
      getIndicesHandler (Except.error e) fromN sizeN sds = ⟨200, ServerResponse.ok ⟨[], 0⟩⟩
      ∧ @searchIndexDataHandler Nat (Except.error e) = ⟨200, ServerResponse.ok ⟨[], 0⟩⟩)
    ∧ (¬ (e.statusCode = 404 ∧ e.errType = "index_not_found_exception") →
      getIndicesHandler (Except.error e) fromN sizeN sds = ⟨200, ServerResponse.fail e.message⟩
      ∧ @searchIndexDataHandler Nat (Except.error e) = ⟨200, ServerResponse.fail e.message⟩
      ∧ ∀ inds, clientGetIndicesStep inds (ServerResponse.fail e.message)
          = (inds, [e.message])) := by
  constructor
  · rintro ⟨h1, h2⟩
    constructor <;> simp [getIndicesHandler, searchIndexDataHandler, h1, h2]
  · intro hn
    have hcond : (e.statusCode == 404 && e.errType == "index_not_found_exception") = false := by
      rcases not_and_or.mp hn with h | h <;> simp [h]
    refine ⟨?_, ?_, ?_⟩
    · simp [getIndicesHandler, hcond]
    · simp [searchIndexDataHandler, hcond]
    · intro inds
      rfl

theorem index_not_found_is_successful_empty_witness :
    getIndicesHandler (Except.error ⟨404, "index_not_found_exception", "no such index"⟩)
        0 50 false
      = ⟨200, ServerResponse.ok ⟨[], 0⟩⟩
    ∧ getIndicesHandler (Except.error ⟨500, "server_error", "boom"⟩) 0 50 false
      = ⟨200, ServerResponse.fail "boom"⟩ :=
  ⟨((index_not_found_is_successful_empty ⟨404, "index_not_found_exception", "no such index"⟩
      0 50 false).1 ⟨rfl, rfl⟩).1,
   ((index_not_found_is_successful_empty ⟨500, "server_error", "boom"⟩
      0 50 false).2 (by decide)).1⟩

/-- C10: Every response of the four `IndexService` handlers carries HTTP
status 200, on success and on failure alike; failure is communicated only
through the `{ok: false, error}` body. -/
theorem handlers_always_http_200
    (b1 : Except BackendErr (List CatIndex)) (fromN sizeN : Nat) (sds : Bool)
    (b2 : Except BackendErr (SearchHits Nat))
    (b3 : Except BackendErr AddResponse)
    (b4 : Except BackendErr Bool) :
    (getIndicesHandler b1 fromN sizeN sds).statusCode = 200
    ∧ (searchIndexDataHandler b2).statusCode = 200
    ∧ (applyPolicyHandler b3).statusCode = 200
    ∧ (editRolloverAliasHandler b4).statusCode = 200 := by
  refine ⟨?_, ?_, ?_, ?_⟩
  · cases b1 with
    | ok p => rfl
    | error e =>
      simp only [getIndicesHandler]
      split_ifs <;> rfl
  · cases b2 with
    | ok p => rfl
    | error e =>
      simp only [searchIndexDataHandler]
      split_ifs <;> rfl
  · cases b3 with
    | ok p => rfl
    | error e => rfl
  · cases b4 with
    | ok p => rfl
    | error e => rfl

/-- C8: A filter-parse error makes `onSearchChange` return at once: no
backend row fetch, state (columns and rows) exactly unchanged; a
successfully parsed query with a selected source index triggers exactly one
row fetch whose result replaces only `raw_data`. -/
theorem filter_parse_error_no_fetch
    (toES : Q → E) (fetch : String → E → List (Row Nat))
    (s : SearchState Nat) (query : Q) :
    (∀ err : String, onSearchChange toES fetch s query (some err) = (s, false))
    ∧ ∀ opts opt v, s.sourceIndex = some opts → opts.head? = some opt →
        opt.value = some v → v ≠ "" →
        onSearchChange toES fetch s query none
          = ({ s with raw_data := fetch v (toES query) }, true) := by
  constructor
  · intro err
    rfl
  · intro opts opt v h1 h2 h3 h4
    have hv : (v == "") = false := beq_eq_false_iff_ne.mpr h4
    simp [onSearchChange, h1, h2, h3, hv]

theorem filter_parse_error_no_fetch_witness :
    onSearchChange (fun q : Nat => q) (fun _ _ => [[("a", some 3)]])
        (⟨some [⟨"lbl", some "idx"⟩], [⟨"a", "string"⟩], []⟩ : SearchState Nat)
        0 (some "parse error")
      = (⟨some [⟨"lbl", some "idx"⟩], [⟨"a", "string"⟩], []⟩, false)
    ∧ onSearchChange (fun q : Nat => q) (fun _ _ => [[("a", some 3)]])
        (⟨some [⟨"lbl", some "idx"⟩], [⟨"a", "string"⟩], []⟩ : SearchState Nat)
        0 none
      = (⟨some [⟨"lbl", some "idx"⟩], [⟨"a", "string"⟩], [[("a", some 3)]]⟩, true) :=
  ⟨(filter_parse_error_no_fetch (fun q : Nat => q) (fun _ _ => [[("a", some 3)]])
      ⟨some [⟨"lbl", some "idx"⟩], [⟨"a", "string"⟩], []⟩ 0).1 "parse error",
   (filter_parse_error_no_fetch (fun q : Nat => q) (fun _ _ => [[("a", some 3)]])
      ⟨some [⟨"lbl", some "idx"⟩], [⟨"a", "string"⟩], []⟩ 0).2
     [⟨"lbl", some "idx"⟩] ⟨"lbl", some "idx"⟩ "idx" rfl rfl rfl (by decide)⟩

/-- C9 counterexample: with `{leading: true}` the first call of the burst
`[0, 100, 200]` (wait 500) fires a backend request immediately at `t = 0`;
the burst yields two requests `[0, 700]`, not a single trailing one. -/
theorem debounce_leading_fires_counterexample :
    debounceInvocations 500 [0, 100, 200] = [0, 700]
    ∧ debounceInvocations 500 [0, 100, 200] ≠ [700] := by
  constructor <;> decide

theorem debounceAux_pending_burst (wait lc : Nat) (ts : List Nat)
    (h : isBurst wait (lc :: ts) = true) :
    debounceAux wait (some lc) true ts = [ts.getLastD lc + wait] := by
  induction ts generalizing lc with
  | nil => rfl
  | cons u ts ih =>
    simp only [isBurst, Bool.and_eq_true, decide_eq_true_eq] at h
    have hlt : ¬ wait ≤ u - lc := Nat.not_le.mpr h.1.2
    simp only [debounceAux, if_neg hlt]
    rw [List.getLastD_cons]
    exact ih u h.2

/-- C9 (amended): for one burst of calls, the debounced `getIndices`
(configured with a leading edge) fires immediately at the burst's FIRST
call; intermediate calls are dropped; when the burst has more than one
call, a single additional trailing request fires `wait` after the last
call. -/
theorem debounce_leading_and_trailing (wait t : Nat) (ts : List Nat)
    (h : isBurst wait (t :: ts) = true) :
    debounceInvocations wait (t :: ts)
      = if ts.isEmpty then [t] else [t, ts.getLastD t + wait] := by
  cases ts with
  | nil => rfl
  | cons u ts =>
    simp only [isBurst, Bool.and_eq_true, decide_eq_true_eq] at h
    have hlt : ¬ wait ≤ u - t := Nat.not_le.mpr h.1.2
    show t :: debounceAux wait (some t) false (u :: ts) = _
    simp only [debounceAux, if_neg hlt, List.isEmpty_cons, List.getLastD_cons]
    rw [debounceAux_pending_burst wait u ts h.2]
    simp

theorem debounce_leading_and_trailing_witness :
    debounceInvocations 500 [0, 100, 200] = [0, 700] := by
  have := debounce_leading_and_trailing 500 0 [100, 200] (by decide)
  simpa using this
